import Mathlib

/-!
Verification of the cluster rescheduling MILP builder
(`src/datafev/algorithms/cluster/rescheduling_milp.py`, function `reschedule`).

The embedding has two levels, mirroring the Python code:

* A raw level (`RawParams`, `buildModel`) models the dictionary-based inputs
  of `reschedule` and the eager Pyomo model construction, in which every
  dictionary access `d[k]` and every access to an indexed variable at an
  index outside its index set raises a `KeyError`.  `buildModel` performs
  exactly those accesses, in the order the Pyomo `ConcreteModel` statements
  execute, and returns either the first error or the fully built model data.

* A model level (`Params`, `Sol`, the constraint predicates and `Feasible`)
  gives the semantics of the constructed optimization model: `Feasible p sol`
  holds iff the variable assignment `sol` satisfies every constraint that the
  source attaches to the model, together with the declared variable domains.

All reals of the source are modelled by `ℚ`; every definition is executable
so that concrete instances can be checked by `decide`.
-/

namespace Resched

/-- Data of a fully constructed optimization model: the index set `V` of
vehicle identifiers (keys of `bcap`), the horizon `opt_horizon`, and the
per-vehicle / per-step parameter functions.  Mirrors the attributes stored
on the Pyomo `ConcreteModel` in `reschedule`. -/
structure Params where
  /-- Source: `model.deltaSec = opt_step`, seconds per step. -/
  deltaSec : ℚ
  /-- Source: `opt_horizon`: the H+1 step identifiers. -/
  horizon : List ℤ
  /-- Source: `model.V`: vehicle identifiers, `list(bcap.keys())`. -/
  V : List ℕ
  /-- Source: `model.P_EV_pos = pmax_pos`. -/
  P_EV_pos : ℕ → ℚ
  /-- Source: `model.P_EV_neg = pmax_neg`. -/
  P_EV_neg : ℕ → ℚ
  /-- Source: `model.P_CC_up = upperlimit`. -/
  P_CC_up : ℤ → ℚ
  /-- Source: `model.P_CC_low = lowerlimit`. -/
  P_CC_low : ℤ → ℚ
  /-- Source: `model.P_CC_vio = tolerance`. -/
  P_CC_vio : ℚ
  /-- Source: `model.eff_ch = ch_eff`. -/
  eff_ch : ℕ → ℚ
  /-- Source: `model.eff_ds = ds_eff`. -/
  eff_ds : ℕ → ℚ
  /-- Source: `model.E = bcap`, battery capacities. -/
  E : ℕ → ℚ
  /-- Source: `model.s_ini = inisoc`. -/
  s_ini : ℕ → ℚ
  /-- Source: `model.s_tar = tarsoc`. -/
  s_tar : ℕ → ℚ
  /-- Source: `model.s_min = minsoc`. -/
  s_min : ℕ → ℚ
  /-- Source: `model.s_max = maxsoc`. -/
  s_max : ℕ → ℚ
  /-- Source: `model.t_dep = deptime`. -/
  t_dep : ℕ → ℤ
  /-- penalty weight for schedule deviation. -/
  rho_y : ℚ
  /-- penalty weight for limit violation. -/
  rho_eps : ℚ

/-- Source: `model.T = Set(initialize=opt_horizon[:-1])`: flow steps. -/
def listT (p : Params) : List ℤ := p.horizon.dropLast

/-- Source: `model.Tp = Set(initialize=opt_horizon)`: SOC steps. -/
def listTp (p : Params) : List ℤ := p.horizon

/-- Source: `max(opt_horizon)` as used in the deviation constraints and in result
extraction (defined only for a nonempty horizon in the source; `0` is a
junk value for the empty case, which the source would reject at runtime). -/
def lastStep (p : Params) : ℤ := p.horizon.max?.getD 0

/-- A variable assignment for one model instance: one value for every
decision variable declared by `reschedule`. -/
structure Sol where
  /-- Source: `model.p_ev`: net charging power, `Reals`. -/
  p_ev : ℕ → ℤ → ℚ
  /-- Source: `model.p_ev_pos`: charging power, `NonNegativeReals`. -/
  p_ev_pos : ℕ → ℤ → ℚ
  /-- Source: `model.p_ev_neg`: discharging power, `NonNegativeReals`. -/
  p_ev_neg : ℕ → ℤ → ℚ
  /-- Source: `model.x_ev`: charge selector, `Binary`. -/
  x_ev : ℕ → ℤ → ℚ
  /-- Source: `model.s`: SOC, `NonNegativeReals`, indexed by `V × Tp`. -/
  s : ℕ → ℤ → ℚ
  /-- Source: `model.p_cc`: aggregate cluster power, `Reals`. -/
  p_cc : ℤ → ℚ
  /-- Source: `model.eps`: shared violation slack, `NonNegativeReals`. -/
  eps : ℚ
  /-- Source: `model.y`: per-vehicle deviation slack, `NonNegativeReals`. -/
  y : ℕ → ℚ

/-- Domains declared on the `Var` statements: `p_ev_pos`, `p_ev_neg`
nonnegative, `x_ev` binary on `V × T`; `s` nonnegative on `V × Tp`;
`eps` and `y` nonnegative. -/
def varDomains (p : Params) (sol : Sol) : Prop :=
  (∀ v ∈ p.V, ∀ t ∈ listT p,
      0 ≤ sol.p_ev_pos v t ∧ 0 ≤ sol.p_ev_neg v t ∧
      (sol.x_ev v t = 0 ∨ sol.x_ev v t = 1)) ∧
  (∀ v ∈ p.V, ∀ t ∈ listTp p, 0 ≤ sol.s v t) ∧
  0 ≤ sol.eps ∧
  (∀ v ∈ p.V, 0 ≤ sol.y v)

/-- Constraint rule `initialsoc`: `model.s[v, 0] == model.s_ini[v]`.
Note the literal index `0`. -/
def initialsoc (p : Params) (sol : Sol) : Prop :=
  ∀ v ∈ p.V, sol.s v 0 = p.s_ini v

/-- Constraint rule `minimumsoc`: `model.s_min[v] <= model.s[v, t]`
for `t` in `T` (flow steps only). -/
def minimumsoc (p : Params) (sol : Sol) : Prop :=
  ∀ v ∈ p.V, ∀ t ∈ listT p, p.s_min v ≤ sol.s v t

/-- Constraint rule `maximumsoc`: `model.s_max[v] >= model.s[v, t]`
for `t` in `T` (flow steps only). -/
def maximumsoc (p : Params) (sol : Sol) : Prop :=
  ∀ v ∈ p.V, ∀ t ∈ listT p, sol.s v t ≤ p.s_max v

/-- Constraint rule `storageConservation`:
`s[v,t+1] == s[v,t] + (p_ev_pos[v,t] - p_ev_neg[v,t]) / E[v] * deltaSec`. -/
def storageConservation (p : Params) (sol : Sol) : Prop :=
  ∀ v ∈ p.V, ∀ t ∈ listT p,
    sol.s v (t + 1) =
      sol.s v t + (sol.p_ev_pos v t - sol.p_ev_neg v t) / p.E v * p.deltaSec

/-- Constraint rule `chargepowerlimit`:
`p_ev[v,t] == p_ev_pos[v,t] - p_ev_neg[v,t]`. -/
def chargepowerlimit (p : Params) (sol : Sol) : Prop :=
  ∀ v ∈ p.V, ∀ t ∈ listT p,
    sol.p_ev v t = sol.p_ev_pos v t - sol.p_ev_neg v t

/-- Constraint rule `combinatorics_ch`: at model build time the rule
returns `p_ev_pos[v,t] == 0` when `t >= t_dep[v]`, and
`p_ev_pos[v,t] <= x_ev[v,t] * P_EV_pos[v]` otherwise. -/
def combinatorics_ch (p : Params) (sol : Sol) : Prop :=
  ∀ v ∈ p.V, ∀ t ∈ listT p,
    (p.t_dep v ≤ t → sol.p_ev_pos v t = 0) ∧
    (t < p.t_dep v → sol.p_ev_pos v t ≤ sol.x_ev v t * p.P_EV_pos v)

/-- Constraint rule `combinatorics_ds`: `p_ev_neg[v,t] == 0` when
`t >= t_dep[v]`, else `p_ev_neg[v,t] <= (1 - x_ev[v,t]) * P_EV_neg[v]`. -/
def combinatorics_ds (p : Params) (sol : Sol) : Prop :=
  ∀ v ∈ p.V, ∀ t ∈ listT p,
    (p.t_dep v ≤ t → sol.p_ev_neg v t = 0) ∧
    (t < p.t_dep v → sol.p_ev_neg v t ≤ (1 - sol.x_ev v t) * p.P_EV_neg v)

/-- Constraint rule `ccpower`:
`p_cc[t] == sum(p_ev_pos[v,t]/eff_ch[v] - p_ev_neg[v,t]*eff_ds[v] for v in V)`. -/
def ccpower (p : Params) (sol : Sol) : Prop :=
  ∀ t ∈ listT p,
    sol.p_cc t =
      (p.V.map fun v => sol.p_ev_pos v t / p.eff_ch v -
        sol.p_ev_neg v t * p.eff_ds v).sum

/-- Constraint rule `cluster_limit_violation`: `eps <= P_CC_vio`. -/
def cluster_limit_violation (p : Params) (sol : Sol) : Prop :=
  sol.eps ≤ p.P_CC_vio

/-- Constraint rule `cluster_upper_limit`: `p_cc[t] <= eps + P_CC_up[t]`. -/
def cluster_upper_limit (p : Params) (sol : Sol) : Prop :=
  ∀ t ∈ listT p, sol.p_cc t ≤ sol.eps + p.P_CC_up t

/-- Constraint rule `cluster_lower_limit`: `-eps + P_CC_low[t] <= p_cc[t]`. -/
def cluster_lower_limit (p : Params) (sol : Sol) : Prop :=
  ∀ t ∈ listT p, -sol.eps + p.P_CC_low t ≤ sol.p_cc t

/-- Constraint rule `individual_pos_deviation`:
`s_tar[v] - s[v, max(opt_horizon)] <= y[v]`. -/
def individual_pos_deviation (p : Params) (sol : Sol) : Prop :=
  ∀ v ∈ p.V, p.s_tar v - sol.s v (lastStep p) ≤ sol.y v

/-- Constraint rule `individual_neg_deviation`:
`-y[v] <= s_tar[v] - s[v, max(opt_horizon)]`. -/
def individual_neg_deviation (p : Params) (sol : Sol) : Prop :=
  ∀ v ∈ p.V, -sol.y v ≤ p.s_tar v - sol.s v (lastStep p)

/-- A feasible point of the model built by `reschedule`: all declared
variable domains and every constraint attached to the model. -/
def Feasible (p : Params) (sol : Sol) : Prop :=
  varDomains p sol ∧
  initialsoc p sol ∧
  minimumsoc p sol ∧
  maximumsoc p sol ∧
  storageConservation p sol ∧
  chargepowerlimit p sol ∧
  combinatorics_ch p sol ∧
  combinatorics_ds p sol ∧
  ccpower p sol ∧
  cluster_limit_violation p sol ∧
  cluster_upper_limit p sol ∧
  cluster_lower_limit p sol ∧
  individual_pos_deviation p sol ∧
  individual_neg_deviation p sol

/-- Objective `obj_rule`:
`rho_y * sum(y[v]*E[v]/3600 for v in V) + rho_eps * eps`, minimized. -/
def obj_rule (p : Params) (sol : Sol) : ℚ :=
  p.rho_y * (p.V.map fun v => sol.y v * p.E v / 3600).sum + p.rho_eps * sol.eps

/-- The raw dictionary-based arguments of `reschedule` (the `solver`
argument is kept separate).  Python dicts are association lists; vehicle
identifiers are `ℕ`. -/
structure RawParams where
  opt_step : ℚ
  opt_horizon : List ℤ
  upperlimit : List (ℤ × ℚ)
  lowerlimit : List (ℤ × ℚ)
  tolerance : ℚ
  bcap : List (ℕ × ℚ)
  inisoc : List (ℕ × ℚ)
  tarsoc : List (ℕ × ℚ)
  minsoc : List (ℕ × ℚ)
  maxsoc : List (ℕ × ℚ)
  ch_eff : List (ℕ × ℚ)
  ds_eff : List (ℕ × ℚ)
  pmax_pos : List (ℕ × ℚ)
  pmax_neg : List (ℕ × ℚ)
  deptime : List (ℕ × ℤ)
  rho_y : ℚ
  rho_eps : ℚ

/-- Which dictionary (or indexed variable) a failed access refers to.
`sVar` is the indexed SOC variable `model.s`. -/
inductive DictName where
  | sVar
  | inisocD
  | minsocD
  | maxsocD
  | bcapD
  | deptimeD
  | pmaxPosD
  | pmaxNegD
  | chEffD
  | dsEffD
  | upperlimitD
  | lowerlimitD
  | tarsocD
  deriving DecidableEq

/-- Errors that model construction can raise.  The Python code can only
raise `keyError` (a failed dict lookup or indexed-variable access) and
`valueErrorEmptyList` (`max([])`).  The constructors
`missingParameterError` and `horizonMismatchError` stand for the dedicated
error classes that the specification names; no code path produces them. -/
inductive BuildError where
  | keyError (d : DictName)
  | valueErrorEmptyList
  | missingParameterError
  | horizonMismatchError
  deriving DecidableEq

/-- Sequencing of eager constraint construction: the first error aborts. -/
def seqE {α : Type} (a : Except BuildError Unit) (b : Except BuildError α) :
    Except BuildError α :=
  match a with
  | .ok _ => b
  | .error e => .error e

/-- Construction of `model.inisoc`: for each `v` in `V`, evaluate
`model.s[v, 0]` (a `KeyError` when `0` is not in `Tp`) and then
`model.s_ini[v]`. -/
def check_inisoc (Tp : List ℤ) (d : List (ℕ × ℚ)) : List ℕ → Except BuildError Unit
  | [] => .ok ()
  | v :: vs =>
    if (0 : ℤ) ∈ Tp then
      match d.lookup v with
      | some _ => check_inisoc Tp d vs
      | none => .error (.keyError .inisocD)
    else .error (.keyError .sVar)

/-- One pass over the vehicles looking a key up in one dict. -/
def check_dict_v (dn : DictName) (d : List (ℕ × ℚ)) : List ℕ → Except BuildError Unit
  | [] => .ok ()
  | v :: vs =>
    match d.lookup v with
    | some _ => check_dict_v dn d vs
    | none => .error (.keyError dn)

/-- Construction of a constraint indexed by `V × T` whose rule looks `v`
up in one dict: no access happens when `T` is empty. -/
def check_dict_vt (dn : DictName) (d : List (ℕ × ℚ)) (T : List ℤ)
    (vs : List ℕ) : Except BuildError Unit :=
  if T.isEmpty then .ok () else check_dict_v dn d vs

/-- Inner loop of `storageConservation` construction for one vehicle:
for each `t` in `T`, evaluate `model.s[v, t+1]` (a `KeyError` when
`t+1` is not in `Tp`) and then `model.E[v]`. -/
def check_soccon_t (Tp : List ℤ) (bc : List (ℕ × ℚ)) (v : ℕ) :
    List ℤ → Except BuildError Unit
  | [] => .ok ()
  | t :: ts =>
    if t + 1 ∈ Tp then
      match bc.lookup v with
      | some _ => check_soccon_t Tp bc v ts
      | none => .error (.keyError .bcapD)
    else .error (.keyError .sVar)

/-- Construction of `model.socconst` over `V × T`. -/
def check_soccon (Tp : List ℤ) (bc : List (ℕ × ℚ)) (T : List ℤ) :
    List ℕ → Except BuildError Unit
  | [] => .ok ()
  | v :: vs => seqE (check_soccon_t Tp bc v T) (check_soccon Tp bc T vs)

/-- Inner loop of a combinatorics constraint for one vehicle: each `t`
looks up `deptime[v]`, and the maximal-power dict only on the
`t < deptime[v]` branch. -/
def check_comb_t (dep : List (ℕ × ℤ)) (pm : List (ℕ × ℚ)) (dnPm : DictName)
    (v : ℕ) : List ℤ → Except BuildError Unit
  | [] => .ok ()
  | t :: ts =>
    match dep.lookup v with
    | none => .error (.keyError .deptimeD)
    | some td =>
      if td ≤ t then check_comb_t dep pm dnPm v ts
      else
        match pm.lookup v with
        | some _ => check_comb_t dep pm dnPm v ts
        | none => .error (.keyError dnPm)

/-- Construction of `model.combconst1` / `model.combconst2` over `V × T`. -/
def check_comb (dep : List (ℕ × ℤ)) (pm : List (ℕ × ℚ)) (dnPm : DictName)
    (T : List ℤ) : List ℕ → Except BuildError Unit
  | [] => .ok ()
  | v :: vs => seqE (check_comb_t dep pm dnPm v T) (check_comb dep pm dnPm T vs)

/-- Inner loop of `ccpower` construction: the sum over `V` looks up
`eff_ch[v]` and `eff_ds[v]`. -/
def check_ccpow_v (ch ds : List (ℕ × ℚ)) : List ℕ → Except BuildError Unit
  | [] => .ok ()
  | v :: vs =>
    match ch.lookup v with
    | none => .error (.keyError .chEffD)
    | some _ =>
      match ds.lookup v with
      | none => .error (.keyError .dsEffD)
      | some _ => check_ccpow_v ch ds vs

/-- Construction of `model.ccpowtotal` over `T` (for each `t`, the rule
sums over all of `V`). -/
def check_ccpow (ch ds : List (ℕ × ℚ)) (vs : List ℕ) :
    List ℤ → Except BuildError Unit
  | [] => .ok ()
  | _ :: ts => seqE (check_ccpow_v ch ds vs) (check_ccpow ch ds vs ts)

/-- Construction of a limit constraint over `T`: looks `t` up in a
limit dict. -/
def check_limit (dn : DictName) (d : List (ℤ × ℚ)) : List ℤ → Except BuildError Unit
  | [] => .ok ()
  | t :: ts =>
    match d.lookup t with
    | some _ => check_limit dn d ts
    | none => .error (.keyError dn)

/-- Construction of the deviation constraints over `V`: looks up
`tarsoc[v]` and evaluates `max(opt_horizon)` (a `ValueError` on an
empty list). -/
def check_indev (tars : List (ℕ × ℚ)) (horizon : List ℤ) :
    List ℕ → Except BuildError Unit
  | [] => .ok ()
  | v :: vs =>
    match tars.lookup v with
    | none => .error (.keyError .tarsocD)
    | some _ =>
      match horizon.max? with
      | none => .error .valueErrorEmptyList
      | some _ => check_indev tars horizon vs

/-- The `Params` record assembled from the raw dictionaries once all
accesses are known to succeed (the `getD 0` defaults are never reached
on the keys the model uses). -/
def assembled (rp : RawParams) : Params where
  deltaSec := rp.opt_step
  horizon := rp.opt_horizon
  V := rp.bcap.map Prod.fst
  P_EV_pos := fun v => (rp.pmax_pos.lookup v).getD 0
  P_EV_neg := fun v => (rp.pmax_neg.lookup v).getD 0
  P_CC_up := fun t => (rp.upperlimit.lookup t).getD 0
  P_CC_low := fun t => (rp.lowerlimit.lookup t).getD 0
  P_CC_vio := rp.tolerance
  eff_ch := fun v => (rp.ch_eff.lookup v).getD 0
  eff_ds := fun v => (rp.ds_eff.lookup v).getD 0
  E := fun v => (rp.bcap.lookup v).getD 0
  s_ini := fun v => (rp.inisoc.lookup v).getD 0
  s_tar := fun v => (rp.tarsoc.lookup v).getD 0
  s_min := fun v => (rp.minsoc.lookup v).getD 0
  s_max := fun v => (rp.maxsoc.lookup v).getD 0
  t_dep := fun v => (rp.deptime.lookup v).getD 0
  rho_y := rp.rho_y
  rho_eps := rp.rho_eps

/-- Eager construction of the `ConcreteModel`: performs every dictionary
and indexed-variable access of the constraint rules, in source statement
order, and returns the first `KeyError` (or the built model data).  There
is no validation step: missing fields surface as `keyError`, never as the
dedicated error classes the specification names. -/
def buildModel (rp : RawParams) : Except BuildError Params :=
  let V := rp.bcap.map Prod.fst
  let T := rp.opt_horizon.dropLast
  let Tp := rp.opt_horizon
  seqE (check_inisoc Tp rp.inisoc V) <|
  seqE (check_dict_vt .minsocD rp.minsoc T V) <|
  seqE (check_dict_vt .maxsocD rp.maxsoc T V) <|
  seqE (check_soccon Tp rp.bcap T V) <|
  seqE (check_comb rp.deptime rp.pmax_pos .pmaxPosD T V) <|
  seqE (check_comb rp.deptime rp.pmax_neg .pmaxNegD T V) <|
  seqE (check_ccpow rp.ch_eff rp.ds_eff V T) <|
  seqE (check_limit .upperlimitD rp.upperlimit T) <|
  seqE (check_limit .lowerlimitD rp.lowerlimit T) <|
  seqE (check_indev rp.tarsoc rp.opt_horizon V) <|
  seqE (check_indev rp.tarsoc rp.opt_horizon V) <|
  .ok (assembled rp)

/-- Termination status reported by the external solver. -/
inductive TermCond where
  | optimal
  | infeasible
  | unbounded
  | maxTimeLimit
  | solverError
  deriving DecidableEq

/-- Outcome of `solver.solve(model)`: a termination status, and the
variable assignment loaded into the model (`none` when the solver
loaded no solution, leaving every variable uninitialized). -/
structure SolverOut where
  termCond : TermCond
  loaded : Option Sol

/-- Runtime errors `reschedule` can raise after construction:
a `BuildError` during model construction, or the `ValueError` Pyomo
raises when `model.p_ev[v, t]()` / `model.s[v, t]()` is evaluated on an
uninitialized variable during result extraction. -/
inductive RunError where
  | buildError (e : BuildError)
  | uninitializedValue
  deriving DecidableEq

/-- The result-saving loop of `reschedule`: reads `model.p_ev[v, t]()` for
`t < max(opt_horizon)` and `model.s[v, t]()` for every `t` in the horizon.
With a loaded assignment it passes the solved values through unchanged;
with no loaded assignment the first read raises, except in the degenerate
cases (no vehicles, empty horizon) where the loop body never runs and the
returned dictionaries are empty (modelled as zero functions). -/
def save_results (m : Params) (res : SolverOut) :
    Except RunError ((ℕ → ℤ → ℚ) × (ℕ → ℤ → ℚ)) :=
  match res.loaded with
  | some sol => .ok (sol.p_ev, sol.s)
  | none =>
    if m.V.isEmpty || m.horizon.isEmpty then .ok (fun _ _ => 0, fun _ _ => 0)
    else .error .uninitializedValue

/-- The whole of `reschedule`: eager model construction, one opaque
solver call, result extraction.  The solver is an arbitrary function from
the built model to a `SolverOut`; `reschedule` never inspects the
termination status. -/
def reschedule (solve : Params → SolverOut) (rp : RawParams) :
    Except RunError ((ℕ → ℤ → ℚ) × (ℕ → ℤ → ℚ)) :=
  match buildModel rp with
  | .error e => .error (.buildError e)
  | .ok m => save_results m (solve m)

/-! ### Concrete instances used to witness the theorems -/

/-- One vehicle (id `1`), horizon `0,1,2`, 300 s steps, 1 kWh battery
(3600 kWs), lossless chargers, 12 kW limits, departure at step 2,
generous cluster limits. -/
def exP : Params where
  deltaSec := 300
  horizon := [0, 1, 2]
  V := [1]
  P_EV_pos := fun _ => 12
  P_EV_neg := fun _ => 12
  P_CC_up := fun _ => 100
  P_CC_low := fun _ => -100
  P_CC_vio := 1
  eff_ch := fun _ => 1
  eff_ds := fun _ => 1
  E := fun _ => 3600
  s_ini := fun _ => 1/2
  s_tar := fun _ => 1/2
  s_min := fun _ => 0
  s_max := fun _ => 1
  t_dep := fun _ => 2
  rho_y := 1
  rho_eps := 1

/-- The all-idle assignment: no power flows, SOC constant at `1/2`. -/
def exSol : Sol where
  p_ev := fun _ _ => 0
  p_ev_pos := fun _ _ => 0
  p_ev_neg := fun _ _ => 0
  x_ev := fun _ _ => 0
  s := fun _ _ => 1/2
  p_cc := fun _ => 0
  eps := 0
  y := fun _ => 0


/-- Like `exP`, but with `minsoc = 1/2` and a late departure, to exhibit a
feasible point whose terminal SOC drops below `minsoc`. -/
def exP3 : Params :=
  { exP with s_min := fun _ => 1/2, t_dep := fun _ => 5 }

/-- Assignment for `exP3` that discharges 6 kW in the last flow step:
the terminal SOC is `0`, strictly below `minsoc = 1/2`, while both
non-terminal steps sit at `1/2`. -/
def exSol3 : Sol where
  p_ev := fun _ t => if t = 1 then -6 else 0
  p_ev_pos := fun _ _ => 0
  p_ev_neg := fun _ t => if t = 1 then 6 else 0
  x_ev := fun _ _ => 0
  s := fun _ t => if t = 2 then 0 else 1/2
  p_cc := fun t => if t = 1 then -6 else 0
  eps := 0
  y := fun _ => 1/2


/-- The all-idle assignment with a deliberately loose deviation slack
`y = 5`, showing `y` has no upper bound tying it to the deviation. -/
def exSol6 : Sol :=
  { exSol with y := fun _ => 5 }


/-- Like `exP`, but the vehicle's departure index is `0` (already at or
past departure for the whole horizon). -/
def exP9 : Params :=
  { exP with t_dep := fun _ => 0 }


/-- Raw-dictionary form of `exP`: one vehicle `1`, horizon `0,1,2`,
complete dictionaries. -/
def exRaw : RawParams where
  opt_step := 300
  opt_horizon := [0, 1, 2]
  upperlimit := [(0, 100), (1, 100)]
  lowerlimit := [(0, -100), (1, -100)]
  tolerance := 1
  bcap := [(1, 3600)]
  inisoc := [(1, 1/2)]
  tarsoc := [(1, 1/2)]
  minsoc := [(1, 0)]
  maxsoc := [(1, 1)]
  ch_eff := [(1, 1)]
  ds_eff := [(1, 1)]
  pmax_pos := [(1, 12)]
  pmax_neg := [(1, 12)]
  deptime := [(1, 2)]
  rho_y := 1
  rho_eps := 1


/-- Source: `exRaw` with the vehicle's record missing the `inisoc` field. -/
def rpBadIni : RawParams := { exRaw with inisoc := [] }


/-- Source: `exRaw` with `upperlimit` missing flow step `1`, so the limit
mappings do not cover `T`. -/
def rpBadLimit : RawParams := { exRaw with upperlimit := [(0, 100)] }


/-- No vehicles at all, and a horizon `1,2` that does not contain the
index `0`. -/
def rpEmptyV : RawParams where
  opt_step := 300
  opt_horizon := [1, 2]
  upperlimit := [(1, 100)]
  lowerlimit := [(1, -100)]
  tolerance := 1
  bcap := []
  inisoc := []
  tarsoc := []
  minsoc := []
  maxsoc := []
  ch_eff := []
  ds_eff := []
  pmax_pos := []
  pmax_neg := []
  deptime := []
  rho_y := 1
  rho_eps := 1


/-- One vehicle, but a horizon `1,2` that does not contain the index `0`. -/
def rpNoZero : RawParams := { exRaw with opt_horizon := [1, 2] }

/-- Source: `exRaw` with limit mappings strictly larger than the flow-step set
`T = [0, 1]`: `upperlimit` has the extra key `5` and `lowerlimit` the extra
key `7`. -/
def rpExtraLimit : RawParams :=
  { exRaw with
    upperlimit := [(0, 100), (1, 100), (5, 100)]
    lowerlimit := [(0, -100), (1, -100), (7, -100)] }

/-- Source: `exRaw` with a vehicle that has already departed (`deptime = 0`) and
whose `pmax_pos` / `pmax_neg` records are entirely absent: on every flow
step the `t >= t_dep[v]` branch is taken, so the maximal-power dicts are
never accessed. -/
def rpDepartedNoPmax : RawParams :=
  { exRaw with
    deptime := [(1, 0)]
    pmax_pos := []
    pmax_neg := [] }

/-- The consecutive horizon `0, 1, ..., n-1` as integers, the shape the
external interface promises (`H+1` consecutive step indices from `0`). -/
def intRange (n : ℕ) : List ℤ := List.map (fun i : ℕ => (i : ℤ)) (List.range n)

/-- A solver stub for a backend that hits its time limit but still loads
the incumbent assignment into the model. -/
def timeLimitSolver : Params → SolverOut := fun _ => ⟨.maxTimeLimit, some exSol⟩

/-- A solver stub for a backend that proves infeasibility: non-success
termination and no assignment loaded. -/
def infeasibleSolver : Params → SolverOut := fun _ => ⟨.infeasible, none⟩

/-! ### Helper lemmas -/

theorem feas_exP_exSol : Feasible exP exSol := by
  simp [Feasible, varDomains, initialsoc, minimumsoc, maximumsoc, storageConservation,
    chargepowerlimit, combinatorics_ch, combinatorics_ds, ccpower,
    cluster_limit_violation, cluster_upper_limit, cluster_lower_limit,
    individual_pos_deviation, individual_neg_deviation, exP, exSol,
    listT, listTp, lastStep, List.forall_mem_cons]
  norm_num

theorem feas_exP3_exSol3 : Feasible exP3 exSol3 := by
  simp [Feasible, varDomains, initialsoc, minimumsoc, maximumsoc, storageConservation,
    chargepowerlimit, combinatorics_ch, combinatorics_ds, ccpower,
    cluster_limit_violation, cluster_upper_limit, cluster_lower_limit,
    individual_pos_deviation, individual_neg_deviation, exP3, exP, exSol3,
    listT, listTp, lastStep, List.forall_mem_cons]
  norm_num

theorem feas_exP_exSol6 : Feasible exP exSol6 := by
  simp [Feasible, varDomains, initialsoc, minimumsoc, maximumsoc, storageConservation,
    chargepowerlimit, combinatorics_ch, combinatorics_ds, ccpower,
    cluster_limit_violation, cluster_upper_limit, cluster_lower_limit,
    individual_pos_deviation, individual_neg_deviation, exP, exSol6, exSol,
    listT, listTp, lastStep, List.forall_mem_cons]
  norm_num

theorem feas_exP9_exSol : Feasible exP9 exSol := by
  simp [Feasible, varDomains, initialsoc, minimumsoc, maximumsoc, storageConservation,
    chargepowerlimit, combinatorics_ch, combinatorics_ds, ccpower,
    cluster_limit_violation, cluster_upper_limit, cluster_lower_limit,
    individual_pos_deviation, individual_neg_deviation, exP9, exP, exSol,
    listT, listTp, lastStep, List.forall_mem_cons]
  norm_num

theorem mem_intRange {t : ℤ} {n : ℕ} : t ∈ intRange n ↔ 0 ≤ t ∧ t < n := by
  constructor
  · intro ht
    obtain ⟨i, hi, rfl⟩ := List.mem_map.mp ht
    rw [List.mem_range] at hi
    omega
  · rintro ⟨h0, hn⟩
    exact List.mem_map.mpr ⟨t.toNat, List.mem_range.mpr (by omega), by omega⟩

theorem intRange_dropLast (n : ℕ) : (intRange (n + 1)).dropLast = intRange n := by
  simp [intRange, List.range_succ, List.dropLast_concat]

theorem seqE_ok {α : Type} {a : Except BuildError Unit} {b : Except BuildError α}
    {m : α} (h : seqE a b = .ok m) : a = .ok () ∧ b = .ok m := by
  cases a with
  | ok u => exact ⟨by cases u; rfl, h⟩
  | error e => simp [seqE] at h

theorem check_inisoc_ok (Tp : List ℤ) (d : List (ℕ × ℚ)) :
    ∀ vs : List ℕ, check_inisoc Tp d vs = .ok () →
      ∀ v ∈ vs, (d.lookup v).isSome = true := by
  intro vs
  induction vs with
  | nil => intro _ v hv; simp at hv
  | cons a as ih =>
    intro h v hv
    by_cases h0 : (0 : ℤ) ∈ Tp
    · cases hla : d.lookup a with
      | none => simp [check_inisoc, h0, hla] at h
      | some q =>
        simp only [check_inisoc, if_pos h0, hla] at h
        rcases List.mem_cons.mp hv with rfl | hv'
        · simp [hla]
        · exact ih h v hv'
    · simp [check_inisoc, h0] at h

theorem check_dict_v_ok (dn : DictName) (d : List (ℕ × ℚ)) :
    ∀ vs : List ℕ, check_dict_v dn d vs = .ok () →
      ∀ v ∈ vs, (d.lookup v).isSome = true := by
  intro vs
  induction vs with
  | nil => intro _ v hv; simp at hv
  | cons a as ih =>
    intro h v hv
    cases hla : d.lookup a with
    | none => simp [check_dict_v, hla] at h
    | some q =>
      simp only [check_dict_v, hla] at h
      rcases List.mem_cons.mp hv with rfl | hv'
      · simp [hla]
      · exact ih h v hv'

theorem check_dict_vt_ok (dn : DictName) (d : List (ℕ × ℚ)) (T : List ℤ)
    (vs : List ℕ) (hT : T ≠ []) (h : check_dict_vt dn d T vs = .ok ()) :
    ∀ v ∈ vs, (d.lookup v).isSome = true := by
  cases T with
  | nil => exact absurd rfl hT
  | cons t ts =>
    simp only [check_dict_vt, List.isEmpty_cons, if_neg] at h
    exact check_dict_v_ok dn d vs (by simpa using h)

theorem check_comb_t_ok (dep : List (ℕ × ℤ)) (pm : List (ℕ × ℚ)) (dnPm : DictName)
    (v : ℕ) (t : ℤ) (ts : List ℤ)
    (h : check_comb_t dep pm dnPm v (t :: ts) = .ok ()) :
    (dep.lookup v).isSome = true := by
  cases hd : dep.lookup v with
  | none => simp [check_comb_t, hd] at h
  | some td => simp

theorem check_comb_ok (dep : List (ℕ × ℤ)) (pm : List (ℕ × ℚ)) (dnPm : DictName)
    (T : List ℤ) (hT : T ≠ []) :
    ∀ vs : List ℕ, check_comb dep pm dnPm T vs = .ok () →
      ∀ v ∈ vs, (dep.lookup v).isSome = true := by
  intro vs
  induction vs with
  | nil => intro _ v hv; simp at hv
  | cons a as ih =>
    intro h v hv
    obtain ⟨h1, h2⟩ := seqE_ok h
    rcases List.mem_cons.mp hv with rfl | hv'
    · cases T with
      | nil => exact absurd rfl hT
      | cons t ts => exact check_comb_t_ok dep pm dnPm v t ts h1
    · exact ih h2 v hv'

theorem check_ccpow_v_ok (ch ds : List (ℕ × ℚ)) :
    ∀ vs : List ℕ, check_ccpow_v ch ds vs = .ok () →
      ∀ v ∈ vs, (ch.lookup v).isSome = true ∧ (ds.lookup v).isSome = true := by
  intro vs
  induction vs with
  | nil => intro _ v hv; simp at hv
  | cons a as ih =>
    intro h v hv
    cases hc : ch.lookup a with
    | none => simp [check_ccpow_v, hc] at h
    | some q =>
      cases hd : ds.lookup a with
      | none => simp [check_ccpow_v, hc, hd] at h
      | some r =>
        simp only [check_ccpow_v, hc, hd] at h
        rcases List.mem_cons.mp hv with rfl | hv'
        · simp [hc, hd]
        · exact ih h v hv'

theorem check_ccpow_ok (ch ds : List (ℕ × ℚ)) (vs : List ℕ) (T : List ℤ)
    (hT : T ≠ []) (h : check_ccpow ch ds vs T = .ok ()) :
    ∀ v ∈ vs, (ch.lookup v).isSome = true ∧ (ds.lookup v).isSome = true := by
  cases T with
  | nil => exact absurd rfl hT
  | cons t ts =>
    obtain ⟨h1, -⟩ := seqE_ok h
    exact check_ccpow_v_ok ch ds vs h1

theorem check_limit_ok (dn : DictName) (d : List (ℤ × ℚ)) :
    ∀ T : List ℤ, check_limit dn d T = .ok () →
      ∀ t ∈ T, (d.lookup t).isSome = true := by
  intro T
  induction T with
  | nil => intro _ t ht; simp at ht
  | cons a as ih =>
    intro h t ht
    cases hla : d.lookup a with
    | none => simp [check_limit, hla] at h
    | some q =>
      simp only [check_limit, hla] at h
      rcases List.mem_cons.mp ht with rfl | ht'
      · simp [hla]
      · exact ih h t ht'

theorem check_indev_ok (tars : List (ℕ × ℚ)) (horizon : List ℤ) :
    ∀ vs : List ℕ, check_indev tars horizon vs = .ok () →
      ∀ v ∈ vs, (tars.lookup v).isSome = true := by
  intro vs
  induction vs with
  | nil => intro _ v hv; simp at hv
  | cons a as ih =>
    intro h v hv
    cases hla : tars.lookup a with
    | none => simp [check_indev, hla] at h
    | some q =>
      cases hm : horizon.max? with
      | none => simp [check_indev, hla, hm] at h
      | some w =>
        simp only [check_indev, hla, hm] at h
        rcases List.mem_cons.mp hv with rfl | hv'
        · simp [hla]
        · exact ih h v hv'

theorem buildModel_ok (rp : RawParams) (m : Params) (h : buildModel rp = .ok m) :
    m = assembled rp ∧
    check_inisoc rp.opt_horizon rp.inisoc (rp.bcap.map Prod.fst) = .ok () ∧
    check_dict_vt .minsocD rp.minsoc rp.opt_horizon.dropLast
      (rp.bcap.map Prod.fst) = .ok () ∧
    check_dict_vt .maxsocD rp.maxsoc rp.opt_horizon.dropLast
      (rp.bcap.map Prod.fst) = .ok () ∧
    check_soccon rp.opt_horizon rp.bcap rp.opt_horizon.dropLast
      (rp.bcap.map Prod.fst) = .ok () ∧
    check_comb rp.deptime rp.pmax_pos .pmaxPosD rp.opt_horizon.dropLast
      (rp.bcap.map Prod.fst) = .ok () ∧
    check_comb rp.deptime rp.pmax_neg .pmaxNegD rp.opt_horizon.dropLast
      (rp.bcap.map Prod.fst) = .ok () ∧
    check_ccpow rp.ch_eff rp.ds_eff (rp.bcap.map Prod.fst)
      rp.opt_horizon.dropLast = .ok () ∧
    check_limit .upperlimitD rp.upperlimit rp.opt_horizon.dropLast = .ok () ∧
    check_limit .lowerlimitD rp.lowerlimit rp.opt_horizon.dropLast = .ok () ∧
    check_indev rp.tarsoc rp.opt_horizon (rp.bcap.map Prod.fst) = .ok () := by
  simp only [buildModel] at h
  obtain ⟨h1, h⟩ := seqE_ok h
  obtain ⟨h2, h⟩ := seqE_ok h
  obtain ⟨h3, h⟩ := seqE_ok h
  obtain ⟨h4, h⟩ := seqE_ok h
  obtain ⟨h5, h⟩ := seqE_ok h
  obtain ⟨h6, h⟩ := seqE_ok h
  obtain ⟨h7, h⟩ := seqE_ok h
  obtain ⟨h8, h⟩ := seqE_ok h
  obtain ⟨h9, h⟩ := seqE_ok h
  obtain ⟨h10, h⟩ := seqE_ok h
  obtain ⟨h11, h⟩ := seqE_ok h
  refine ⟨?_, h1, h2, h3, h4, h5, h6, h7, h8, h9, h10⟩
  cases h
  rfl

/-! ### Claim theorems -/

/-- C1.  In every feasible solution, for every vehicle and every
non-terminal (flow) step, the SOC obeys the Euler update
`s(t+1) = s(t) + (p_pos - p_neg)/E * deltaSec`, the net power variable
(whose solved values the result extractor returns unchanged) equals
`p_pos - p_neg`, and consequently `s(t+1) = s(t) + p_ev/E * deltaSec`. -/
theorem C1_soc_conservation (p : Params) (sol : Sol) (hF : Feasible p sol) :
    ∀ v ∈ p.V, ∀ t ∈ listT p,
      sol.s v (t + 1) =
        sol.s v t + (sol.p_ev_pos v t - sol.p_ev_neg v t) / p.E v * p.deltaSec ∧
      sol.p_ev v t = sol.p_ev_pos v t - sol.p_ev_neg v t ∧
      sol.s v (t + 1) = sol.s v t + sol.p_ev v t / p.E v * p.deltaSec := by
  obtain ⟨-, -, -, -, hsoc, hchr, -⟩ := hF
  intro v hv t ht
  refine ⟨hsoc v hv t ht, hchr v hv t ht, ?_⟩
  rw [hchr v hv t ht]
  exact hsoc v hv t ht

/-- C1 witness at `exP`, `exSol`, vehicle `1`, step `0`. -/
theorem C1_soc_conservation_witness :
    exSol.s 1 (0 + 1) = exSol.s 1 0 + exSol.p_ev 1 0 / exP.E 1 * exP.deltaSec :=
  (C1_soc_conservation exP exSol feas_exP_exSol 1 (by simp [exP])
    0 (by simp [listT, exP])).2.2

/-- C2.  In every feasible solution, for every vehicle and flow step:
at or after departure, charge, discharge and net power are all exactly
zero; before departure the charge and discharge powers obey the
selector-gated bounds with a binary selector; and in either case at most
one of charge/discharge is strictly positive. -/
theorem C2_departure_and_exclusivity (p : Params) (sol : Sol) (hF : Feasible p sol) :
    ∀ v ∈ p.V, ∀ t ∈ listT p,
      (p.t_dep v ≤ t →
        sol.p_ev_pos v t = 0 ∧ sol.p_ev_neg v t = 0 ∧ sol.p_ev v t = 0) ∧
      (t < p.t_dep v →
        sol.p_ev_pos v t ≤ sol.x_ev v t * p.P_EV_pos v ∧
        sol.p_ev_neg v t ≤ (1 - sol.x_ev v t) * p.P_EV_neg v) ∧
      (sol.x_ev v t = 0 ∨ sol.x_ev v t = 1) ∧
      ¬(0 < sol.p_ev_pos v t ∧ 0 < sol.p_ev_neg v t) := by
  obtain ⟨⟨hdom, -⟩, -, -, -, -, hchr, hch, hds, -⟩ := hF
  intro v hv t ht
  obtain ⟨hpos0, hneg0, hx⟩ := hdom v hv t ht
  refine ⟨?_, ?_, hx, ?_⟩
  · intro hdep
    have h1 := (hch v hv t ht).1 hdep
    have h2 := (hds v hv t ht).1 hdep
    exact ⟨h1, h2, by rw [hchr v hv t ht, h1, h2]; ring⟩
  · intro hdep
    exact ⟨(hch v hv t ht).2 hdep, (hds v hv t ht).2 hdep⟩
  · rintro ⟨hp, hn⟩
    rcases le_or_lt (p.t_dep v) t with hdep | hdep
    · exact absurd ((hch v hv t ht).1 hdep) (by linarith)
    · rcases hx with hx0 | hx1
      · have := (hch v hv t ht).2 hdep
        rw [hx0] at this
        linarith
      · have := (hds v hv t ht).2 hdep
        rw [hx1] at this
        linarith

/-- C2 witness at `exP`, `exSol`, vehicle `1`, step `0` (a pre-departure
step): the selector-gated bounds hold and charge/discharge are not both
strictly positive. -/
theorem C2_departure_and_exclusivity_witness :
    exSol.p_ev_pos 1 0 ≤ exSol.x_ev 1 0 * exP.P_EV_pos 1 ∧
    ¬(0 < exSol.p_ev_pos 1 0 ∧ 0 < exSol.p_ev_neg 1 0) :=
  ⟨((C2_departure_and_exclusivity exP exSol feas_exP_exSol 1 (by simp [exP])
      0 (by simp [listT, exP])).2.1 (by decide)).1,
   (C2_departure_and_exclusivity exP exSol feas_exP_exSol 1 (by simp [exP])
      0 (by simp [listT, exP])).2.2.2⟩

/-- C3.  In every feasible solution the SOC of every vehicle lies in
`[s_min, s_max]` at every non-terminal (flow) step, and is nonnegative at
every step of the extended horizon; the terminal step is not directly
bounded by `[s_min, s_max]`: the concrete feasible point
`exP3`/`exSol3` has terminal SOC strictly below `s_min` (the terminal
index `2` lies in `Tp` but not in `T`). -/
theorem C3_soc_bounds (p : Params) (sol : Sol) (hF : Feasible p sol) :
    (∀ v ∈ p.V, ∀ t ∈ listT p, p.s_min v ≤ sol.s v t ∧ sol.s v t ≤ p.s_max v) ∧
    (∀ v ∈ p.V, ∀ t ∈ listTp p, 0 ≤ sol.s v t) ∧
    (Feasible exP3 exSol3 ∧ exSol3.s 1 2 < exP3.s_min 1 ∧
      (2 : ℤ) ∈ listTp exP3 ∧ (2 : ℤ) ∉ listT exP3) := by
  obtain ⟨⟨-, hs0, -⟩, -, hmin, hmax, -⟩ := hF
  refine ⟨fun v hv t ht => ⟨hmin v hv t ht, hmax v hv t ht⟩, hs0,
    feas_exP3_exSol3, ?_, ?_, ?_⟩
  · show (0 : ℚ) < 1/2
    norm_num
  · simp [listTp, exP3, exP]
  · simp [listT, exP3, exP]

/-- C3 witness at `exP3`, `exSol3`, vehicle `1`, step `0`. -/
theorem C3_soc_bounds_witness :
    exP3.s_min 1 ≤ exSol3.s 1 0 ∧ exSol3.s 1 0 ≤ exP3.s_max 1 :=
  (C3_soc_bounds exP3 exSol3 feas_exP3_exSol3).1 1 (by simp [exP3, exP])
    0 (by simp [listT, exP3, exP])

/-- C4.  In every feasible solution there is one shared nonnegative
violation slack `eps` with `eps ≤ tolerance`, and for every flow step the
aggregate power obeys `p_cc(t) ≤ eps + upperLimit(t)` and
`lowerLimit(t) - eps ≤ p_cc(t)` with that same single slack. -/
theorem C4_soft_limits_shared_slack (p : Params) (sol : Sol) (hF : Feasible p sol) :
    0 ≤ sol.eps ∧ sol.eps ≤ p.P_CC_vio ∧
    ∀ t ∈ listT p,
      sol.p_cc t ≤ sol.eps + p.P_CC_up t ∧
      p.P_CC_low t - sol.eps ≤ sol.p_cc t := by
  obtain ⟨⟨-, -, heps, -⟩, -, -, -, -, -, -, -, -, hvio, hup, hlow, -⟩ := hF
  refine ⟨heps, hvio, fun t ht => ⟨hup t ht, ?_⟩⟩
  have := hlow t ht
  linarith

/-- C4 witness at `exP`, `exSol`, step `0`. -/
theorem C4_soft_limits_shared_slack_witness :
    exSol.eps ≤ exP.P_CC_vio ∧ exSol.p_cc 0 ≤ exSol.eps + exP.P_CC_up 0 :=
  ⟨(C4_soft_limits_shared_slack exP exSol feas_exP_exSol).2.1,
   ((C4_soft_limits_shared_slack exP exSol feas_exP_exSol).2.2
      0 (by simp [listT, exP])).1⟩

/-- C5.  In every feasible solution, for every flow step, the cluster
aggregate power equals the sum over vehicles of charge power divided by
the charge efficiency minus discharge power multiplied by the discharge
efficiency (the asymmetric loss model of the source). -/
theorem C5_cluster_aggregation (p : Params) (sol : Sol) (hF : Feasible p sol) :
    ∀ t ∈ listT p,
      sol.p_cc t =
        (p.V.map fun v => sol.p_ev_pos v t / p.eff_ch v -
          sol.p_ev_neg v t * p.eff_ds v).sum := by
  obtain ⟨-, -, -, -, -, -, -, -, hcc, -⟩ := hF
  exact hcc

/-- C5 witness at `exP`, `exSol`, step `0`. -/
theorem C5_cluster_aggregation_witness :
    exSol.p_cc 0 =
      (exP.V.map fun v => exSol.p_ev_pos v 0 / exP.eff_ch v -
        exSol.p_ev_neg v 0 * exP.eff_ds v).sum :=
  C5_cluster_aggregation exP exSol feas_exP_exSol 0 (by simp [listT, exP])

/-- C6.  The minimized objective is exactly
`rho_y * sum_v (y v * E v / 3600) + rho_eps * eps`; in every feasible
solution each deviation slack dominates the absolute target deviation,
`|s_tar v - s(v, last)| ≤ y v`, via the two one-sided constraints; and
`y` has no other upper bound: the concrete feasible point `exP`/`exSol6`
has `y` strictly larger than the absolute deviation. -/
theorem C6_objective_and_deviation (p : Params) (sol : Sol) (hF : Feasible p sol) :
    obj_rule p sol =
      p.rho_y * (p.V.map fun v => sol.y v * p.E v / 3600).sum +
        p.rho_eps * sol.eps ∧
    (∀ v ∈ p.V, |p.s_tar v - sol.s v (lastStep p)| ≤ sol.y v) ∧
    (Feasible exP exSol6 ∧
      |exP.s_tar 1 - exSol6.s 1 (lastStep exP)| < exSol6.y 1) := by
  obtain ⟨-, -, -, -, -, -, -, -, -, -, -, -, hipos, hineg⟩ := hF
  refine ⟨rfl, fun v hv => abs_le.mpr ⟨?_, hipos v hv⟩, feas_exP_exSol6, ?_⟩
  · have := hineg v hv
    linarith
  · show |exP.s_tar 1 - exSol6.s 1 (lastStep exP)| < 5
    simp [exP, exSol6, exSol, lastStep]

/-- C6 witness at `exP`, `exSol`, vehicle `1`. -/
theorem C6_objective_and_deviation_witness :
    |exP.s_tar 1 - exSol.s 1 (lastStep exP)| ≤ exSol.y 1 :=
  (C6_objective_and_deviation exP exSol feas_exP_exSol).2.1 1 (by simp [exP])

/-- C7 counterexample.  A vehicle record missing its `inisoc` entry, and a
limit mapping missing a flow step, both make model construction fail with
a plain `KeyError` from the dictionary access — not with the dedicated
`MissingParameterError` / `HorizonMismatchError` classes the claim names
(no code path produces those). -/
theorem C7_no_dedicated_error_classes_cex :
    buildModel rpBadIni = .error (.keyError .inisocD) ∧
    buildModel rpBadLimit = .error (.keyError .upperlimitD) ∧
    BuildError.keyError .inisocD ≠ BuildError.missingParameterError ∧
    BuildError.keyError .upperlimitD ≠ BuildError.horizonMismatchError :=
  ⟨rfl, rfl, by decide, by decide⟩

/-- C7 amended.  Model construction is eager and happens before the solver
is ever invoked: any construction error reaches the caller without any
solver call (the result is the same for every solver).  Whenever
construction succeeds, every vehicle key has `inisoc` and `tarsoc`
entries; with a nonempty flow-step set it also has `minsoc`, `maxsoc`,
`deptime`, `ch_eff` and `ds_eff` entries, and both limit mappings cover
every flow step — so a missing entry from one of those dictionaries, or an
uncovered flow step, is always detected during construction, but as a
generic `keyError`.  Nothing more stringent is checked: the third
conjunct shows that construction succeeds with limit mappings strictly
larger than the flow-step set `T = [0, 1]` (extra keys `5` and `7`), and
succeeds with an already-departed vehicle (`deptime = 0`) whose
`pmax_pos` / `pmax_neg` records are entirely absent, because those dicts
are only accessed on the pre-departure branch. -/
theorem C7_build_failures_detected_before_solver (rp : RawParams) :
    (∀ e solve, buildModel rp = .error e →
      reschedule solve rp = .error (.buildError e)) ∧
    (∀ m, buildModel rp = .ok m →
      (∀ v ∈ rp.bcap.map Prod.fst,
        (rp.inisoc.lookup v).isSome = true ∧ (rp.tarsoc.lookup v).isSome = true) ∧
      (rp.opt_horizon.dropLast ≠ [] →
        ∀ v ∈ rp.bcap.map Prod.fst,
          (rp.minsoc.lookup v).isSome = true ∧
          (rp.maxsoc.lookup v).isSome = true ∧
          (rp.deptime.lookup v).isSome = true ∧
          (rp.ch_eff.lookup v).isSome = true ∧
          (rp.ds_eff.lookup v).isSome = true) ∧
      (∀ t ∈ rp.opt_horizon.dropLast,
        (rp.upperlimit.lookup t).isSome = true ∧
        (rp.lowerlimit.lookup t).isSome = true)) ∧
    ((buildModel rpExtraLimit).isOk = true ∧
      (rpExtraLimit.upperlimit.lookup 5).isSome = true ∧
      (5 : ℤ) ∉ rpExtraLimit.opt_horizon.dropLast ∧
      (rpExtraLimit.lowerlimit.lookup 7).isSome = true ∧
      (7 : ℤ) ∉ rpExtraLimit.opt_horizon.dropLast) ∧
    ((buildModel rpDepartedNoPmax).isOk = true ∧
      rpDepartedNoPmax.deptime.lookup 1 = some 0 ∧
      rpDepartedNoPmax.pmax_pos = [] ∧
      rpDepartedNoPmax.pmax_neg = []) := by
  refine ⟨?_, ?_, ⟨rfl, rfl, by decide, rfl, by decide⟩, rfl, rfl, rfl, rfl⟩
  · intro e solve h
    simp [reschedule, h]
  · intro m h
    obtain ⟨-, h1, h2, h3, -, h5, -, h7, h8, h9, h10⟩ := buildModel_ok rp m h
    refine ⟨?_, ?_, ?_⟩
    · intro v hv
      exact ⟨check_inisoc_ok _ _ _ h1 v hv, check_indev_ok _ _ _ h10 v hv⟩
    · intro hT v hv
      exact ⟨check_dict_vt_ok _ _ _ _ hT h2 v hv,
        check_dict_vt_ok _ _ _ _ hT h3 v hv,
        check_comb_ok _ _ _ _ hT _ h5 v hv,
        (check_ccpow_ok _ _ _ _ hT h7 v hv).1,
        (check_ccpow_ok _ _ _ _ hT h7 v hv).2⟩
    · intro t ht
      exact ⟨check_limit_ok _ _ _ h8 t ht, check_limit_ok _ _ _ h9 t ht⟩

/-- C7 witness: the first part at `rpBadIni` (the construction error
reaches the caller, with the solver never consulted), the second part at
the complete input `exRaw`. -/
theorem C7_build_failures_detected_before_solver_witness :
    reschedule timeLimitSolver rpBadIni =
      .error (.buildError (.keyError .inisocD)) ∧
    (exRaw.inisoc.lookup 1).isSome = true ∧
    (exRaw.upperlimit.lookup 0).isSome = true :=
  ⟨(C7_build_failures_detected_before_solver rpBadIni).1 _ timeLimitSolver rfl,
   (((C7_build_failures_detected_before_solver exRaw).2.1 (assembled exRaw) rfl).1
      1 (by decide)).1,
   (((C7_build_failures_detected_before_solver exRaw).2.1 (assembled exRaw) rfl).2.2
      0 (by decide)).1⟩

/-- C8 counterexample.  `reschedule` never inspects the solver's
termination status: with a backend that reports a non-success termination
(`maxTimeLimit`) but still loads an incumbent assignment, `reschedule`
returns schedules as if the solve had succeeded — no error surfaces. -/
theorem C8_nonsuccess_can_return_schedules_cex :
    (reschedule timeLimitSolver exRaw).isOk = true ∧
    (timeLimitSolver (assembled exRaw)).termCond = TermCond.maxTimeLimit ∧
    TermCond.maxTimeLimit ≠ TermCond.optimal :=
  ⟨rfl, rfl, by decide⟩

/-- C8 amended.  When the solver loads no assignment (as with proven
infeasibility), the result-saving loop hits an uninitialized variable:
`reschedule` raises the generic uninitialized-value error, so the failure
is observable and no schedule values are returned — but it is a generic
extraction error, not a per-cause error kind, and a non-success
termination that loads an assignment is returned as a normal result. -/
theorem C8_no_loaded_solution_generic_error (solve : Params → SolverOut)
    (rp : RawParams) (hnone : ∀ m, (solve m).loaded = none)
    (hok : (buildModel rp).isOk = true)
    (hV : rp.bcap ≠ []) (hh : rp.opt_horizon ≠ []) :
    reschedule solve rp = .error .uninitializedValue := by
  cases hb : buildModel rp with
  | error e => rw [hb] at hok; simp [Except.isOk, Except.toBool] at hok
  | ok m =>
    obtain ⟨hm, -⟩ := buildModel_ok rp m hb
    subst hm
    have h1 : (assembled rp).V.isEmpty = false := by
      cases hc : rp.bcap with
      | nil => exact absurd hc hV
      | cons a l => simp [assembled, hc]
    have h2 : (assembled rp).horizon.isEmpty = false := by
      cases hc : rp.opt_horizon with
      | nil => exact absurd hc hh
      | cons a l => simp [assembled, hc]
    simp [reschedule, hb, save_results, hnone, h1, h2]

/-- C8 witness: an infeasible backend (no assignment loaded) at `exRaw`. -/
theorem C8_no_loaded_solution_generic_error_witness :
    reschedule infeasibleSolver exRaw = .error .uninitializedValue :=
  C8_no_loaded_solution_generic_error infeasibleSolver exRaw (fun _ => rfl) rfl
    (List.cons_ne_nil _ _) (List.cons_ne_nil _ _)

/-- C9.  A vehicle whose departure index is at most `0`, on a consecutive
horizon `0..n`: in every feasible solution its net, charge and discharge
powers are `0` at every flow step, and its SOC equals the initial SOC at
every step of the extended horizon, the terminal one included. -/
theorem C9_departed_vehicle_idle (p : Params) (sol : Sol) (n : ℕ)
    (hF : Feasible p sol) (hhor : p.horizon = intRange (n + 1))
    (v : ℕ) (hv : v ∈ p.V) (hdep : p.t_dep v ≤ 0) :
    (∀ t ∈ listT p,
      sol.p_ev v t = 0 ∧ sol.p_ev_pos v t = 0 ∧ sol.p_ev_neg v t = 0) ∧
    (∀ t ∈ listTp p, sol.s v t = p.s_ini v) := by
  obtain ⟨-, hini, -, -, hsoc, hchr, hch, hds, -⟩ := hF
  have hT : listT p = intRange n := by rw [listT, hhor, intRange_dropLast]
  have hpow : ∀ t ∈ listT p, sol.p_ev_pos v t = 0 ∧ sol.p_ev_neg v t = 0 := by
    intro t ht
    have h0t : (0 : ℤ) ≤ t := by
      rw [hT] at ht
      exact (mem_intRange.mp ht).1
    have hdt : p.t_dep v ≤ t := le_trans hdep h0t
    exact ⟨(hch v hv t ht).1 hdt, (hds v hv t ht).1 hdt⟩
  constructor
  · intro t ht
    obtain ⟨hp, hn⟩ := hpow t ht
    exact ⟨by rw [hchr v hv t ht, hp, hn]; ring, hp, hn⟩
  · have key : ∀ i : ℕ, i ≤ n → sol.s v (i : ℤ) = p.s_ini v := by
      intro i
      induction i with
      | zero => intro _; simpa using hini v hv
      | succ k ih =>
        intro hk
        have hkT : ((k : ℕ) : ℤ) ∈ listT p := by
          rw [hT, mem_intRange]
          constructor <;> omega
        have hstep := hsoc v hv (k : ℤ) hkT
        obtain ⟨hp, hn⟩ := hpow (k : ℤ) hkT
        rw [hp, hn] at hstep
        have hcast : (((k + 1 : ℕ) : ℤ)) = (k : ℤ) + 1 := by push_cast; ring
        rw [hcast, hstep, ih (by omega)]
        simp
    intro t ht
    rw [listTp, hhor, mem_intRange] at ht
    obtain ⟨h0, hlt⟩ := ht
    have htn : t = ((t.toNat : ℕ) : ℤ) := by omega
    rw [htn]
    exact key t.toNat (by omega)

/-- C9 witness at `exP9` (departure index `0`), `exSol`, horizon `0..2`:
flow step `0` and the terminal step `2`. -/
theorem C9_departed_vehicle_idle_witness :
    exSol.p_ev 1 0 = 0 ∧ exSol.s 1 2 = exP9.s_ini 1 :=
  ⟨((C9_departed_vehicle_idle exP9 exSol 2 feas_exP9_exSol rfl 1 (by decide)
      (by decide)).1 0 (by decide)).1,
   (C9_departed_vehicle_idle exP9 exSol 2 feas_exP9_exSol rfl 1 (by decide)
      (by decide)).2 2 (by decide)⟩

/-- C10 counterexample.  A call whose horizon does not contain the index
`0` but whose vehicle set is empty builds the model successfully (no
constraint body ever runs), so the claim's "for every call" fails. -/
theorem C10_no_failure_with_empty_fleet_cex :
    (buildModel rpEmptyV).isOk = true ∧ (0 : ℤ) ∉ rpEmptyV.opt_horizon :=
  ⟨rfl, by decide⟩

/-- C10 amended.  The initial-SOC constraint anchors each vehicle's SOC at
the literal step index `0` (in every feasible solution `s v 0 = s_ini v`),
and for every call with at least one vehicle whose horizon does not
contain the index `0`, model construction fails with the `KeyError`
raised by accessing the nonexistent SOC variable `s[v, 0]` — so a
nonempty-fleet horizon must start at index `0`. -/
theorem C10_initialsoc_literal_zero (rp : RawParams) (hV : rp.bcap ≠ [])
    (h0 : (0 : ℤ) ∉ rp.opt_horizon) :
    buildModel rp = .error (.keyError .sVar) ∧
    (∀ p sol, Feasible p sol → ∀ v ∈ p.V, sol.s v 0 = p.s_ini v) := by
  constructor
  · cases hc : rp.bcap with
    | nil => exact absurd hc hV
    | cons a l =>
      have hchk : check_inisoc rp.opt_horizon rp.inisoc
          (a.1 :: l.map Prod.fst) = .error (.keyError .sVar) := by
        simp [check_inisoc, h0]
      simp [buildModel, hc, hchk, seqE]
  · intro p sol hF v hv
    obtain ⟨-, hini, -⟩ := hF
    exact hini v hv

/-- C10 witness: one vehicle, horizon `1, 2` — construction fails with
the SOC-variable `KeyError`. -/
theorem C10_initialsoc_literal_zero_witness :
    buildModel rpNoZero = .error (.keyError .sVar) :=
  (C10_initialsoc_literal_zero rpNoZero (List.cons_ne_nil _ _) (by decide)).1

end Resched
